import Mathlib

/-!
Shallow embedding of the quota-request table transformation pipeline
(`transformData` and its helpers from the repository's parser module, plus
the value cleaners and the TSV serializer used for clipboard export).

Strings are manipulated through explicit `List Char` helpers that mirror the
JavaScript string primitives used by the source (`trim`, `toLowerCase`,
`split`, counting characters, removing all occurrences of a character or of
the `"(XIO)"` marker), so that every definition is executable and proofs can
proceed by structural induction.
-/

namespace TableParser

/-! ## JavaScript-style string primitives -/

/-- Whitespace test matching the characters relevant to the inputs handled
by the source (`String.prototype.trim` on the data this app processes). -/
def wsChar (c : Char) : Bool :=
  c == ' ' || c == '\t' || c == '\n' || c == '\r'

/-- Remove leading and trailing whitespace from a character list. -/
def trimChars (l : List Char) : List Char :=
  ((l.dropWhile wsChar).reverse.dropWhile wsChar).reverse

/-- `String.prototype.trim`. -/
def jsTrim (s : String) : String :=
  ⟨trimChars s.data⟩

/-- `String.prototype.toLowerCase` (character-wise, ASCII-sound). -/
def jsLower (s : String) : String :=
  ⟨s.data.map Char.toLower⟩

/-- `str.split(sep)` for a single-character separator, on character lists. -/
def splitChars (sep : Char) : List Char → List (List Char)
  | [] => [[]]
  | c :: cs =>
    let r := splitChars sep cs
    if c == sep then
      [] :: r
    else
      match r with
      | [] => [[c]]
      | h :: t => (c :: h) :: t

/-- `str.split(sep)` returning strings. -/
def jsSplit (sep : Char) (s : String) : List String :=
  (splitChars sep s.data).map String.mk

/-- Number of occurrences of a character in a string
(`(line.match(/c/g) || []).length`). -/
def countChar (c : Char) (s : String) : Nat :=
  s.data.count c

/-- `v.replace(/"/g, '')`: drop every double-quote character. -/
def stripQuotes (s : String) : String :=
  ⟨s.data.filter (fun c => !(c == '"'))⟩

/-- `list.join(sep)` for a single-character separator. -/
def joinWith (sep : Char) : List String → String
  | [] => ""
  | s :: rest =>
    match rest with
    | [] => s
    | _ :: _ => s ++ ⟨[sep]⟩ ++ joinWith sep rest

/-- Case-insensitive `startsWith` (regex `/^pre/i` on the data handled). -/
def startsWithCI (pre : String) (line : String) : Bool :=
  pre.data.isPrefixOf (line.data.map Char.toLower)

/-! ## Data model (`types.ts`, `constants.ts`) -/

-- The request-type codes of `REQUEST_TYPE_CODES` in `constants.ts`.
-- The source models them as string constants; we keep the strings.
namespace REQUEST_TYPE_CODES

def ZONAL_ENABLEMENT : String := "ZONAL_ENABLEMENT"

def REGIONAL_ENABLEMENT : String := "REGIONAL_ENABLEMENT"

def QUOTA_INCREASE : String := "QUOTA_INCREASE"

def REGION_ENABLEMENT_QUOTA_INCREASE : String := "REGION_ENABLEMENT_QUOTA_INCREASE"

def REGION_LIMIT_INCREASE : String := "REGION_LIMIT_INCREASE"

def QUOTA_DECREASE : String := "QUOTA_DECREASE"

def RESERVED_INSTANCES : String := "RESERVED_INSTANCES"

def UNKNOWN : String := "UNKNOWN"

end REQUEST_TYPE_CODES

/-- The canonical record produced per row (`TransformedRow` in `types.ts`).
Field names are camel-cased versions of the TS object keys. -/
structure TransformedRow where
  subscriptionId : String
  requestType : String
  vmType : String
  region : String
  zone : String
  cores : String
  status : String
  originalId : String
  requestTypeCode : String
deriving Repr, DecidableEq

/-- Result of header location (`HeaderInfo` in the parser module). -/
structure HeaderInfo where
  headerIndex : Nat
  headers : List String
deriving Repr, DecidableEq

/-- The typed failures raised by `transformData`, one per distinct
error message in the source. -/
inductive TransformError where
  | EmptyInputError
  | InsufficientRowsError
  | MissingHeaderError
  | MissingRequiredColumnError (field : String)
  | NoValidRowsError
deriving Repr, DecidableEq

/-- The successful result of `transformData`: the processed rows and the
insertion-ordered category groups. -/
structure TransformResult where
  transformed : List TransformedRow
  categorized : List (String × List TransformedRow)
deriving Repr, DecidableEq

/-! ## Value cleaners (`cleaners.ts`) -/

/-- `cleanRegion`: `if (!region) return ''; return region.trim();` -/
def cleanRegion (region : String) : String :=
  if region == "" then "" else jsTrim region

/-- The lower-cased `"(XIO)"` marker. -/
def xioChars : List Char := ['(', 'x', 'i', 'o', ')']

/-- Case-insensitive test that five characters spell `"(XIO)"`. -/
def isXioQuint (a b c d e : Char) : Bool :=
  a.toLower == '(' && b.toLower == 'x' && c.toLower == 'i' &&
    d.toLower == 'o' && e.toLower == ')'

/-- `value.replace(/\(XIO\)/gi, "")`: a single left-to-right scan removing
each (non-overlapping) case-insensitive occurrence of `"(XIO)"`. -/
def removeXio : List Char → List Char
  | a :: b :: c :: d :: e :: rest =>
    if isXioQuint a b c d e then removeXio rest
    else a :: removeXio (b :: c :: d :: e :: rest)
  | a :: rest => a :: removeXio rest
  | [] => []

/-- Does a case-insensitive occurrence of `"(XIO)"` appear anywhere? -/
def containsXio : List Char → Bool
  | a :: b :: c :: d :: e :: rest =>
    isXioQuint a b c d e || containsXio (b :: c :: d :: e :: rest)
  | _ => false

/-- `cleanVmType`: `if (!value) return ''; return value.replace(/\(XIO\)/gi, "").trim();` -/
def cleanVmType (value : String) : String :=
  if value == "" then "" else ⟨trimChars (removeXio value.data)⟩

/-- `cleanValue` restricted to strings (the only case exercised by the
serializer): `null`/`undefined` become `''`, strings are trimmed. -/
def cleanValue (val : String) : String :=
  jsTrim val

/-! ## Banner stripping and display-type mapping (parser module) -/

/-- One line of `cleanAzureDevOpsHeader`:
`line.replace(/^Title:\s*/i, '').trim()`.  Consuming the `\s*` after the
prefix is subsumed by the subsequent `trim`. -/
def stripTitleLine (line : String) : String :=
  if startsWithCI "title:" line then jsTrim ⟨line.data.drop 6⟩ else jsTrim line

/-- `cleanAzureDevOpsHeader`: strip the `Title:` artifact from each line
and trim each line. -/
def cleanAzureDevOpsHeader (text : String) : String :=
  if text == "" then ""
  else joinWith '\n' ((splitChars '\n' text.data).map (fun cs => stripTitleLine ⟨cs⟩))

/-- `mapDisplayTypeToCode`: localized display request-type label (EN-US or
PT-BR) to internal code; unmapped values give `UNKNOWN`. -/
def mapDisplayTypeToCode (displayType : String) : String :=
  let normalized := jsTrim (jsLower displayType)
  if normalized == "zonal enablement" then REQUEST_TYPE_CODES.ZONAL_ENABLEMENT
  else if normalized == "region enablement" then REQUEST_TYPE_CODES.REGIONAL_ENABLEMENT
  else if normalized == "region enablement & quota increase" then REQUEST_TYPE_CODES.REGION_ENABLEMENT_QUOTA_INCREASE
  else if normalized == "quota increase" then REQUEST_TYPE_CODES.QUOTA_INCREASE
  else if normalized == "quota decrease" then REQUEST_TYPE_CODES.QUOTA_DECREASE
  else if normalized == "region limit increase" then REQUEST_TYPE_CODES.REGION_LIMIT_INCREASE
  else if normalized == "reserved instances" then REQUEST_TYPE_CODES.RESERVED_INSTANCES
  else if normalized == "habilitação zonal" then REQUEST_TYPE_CODES.ZONAL_ENABLEMENT
  else if normalized == "habilitação regional" then REQUEST_TYPE_CODES.REGIONAL_ENABLEMENT
  else if normalized == "habilitação regional & aumento de cota" then REQUEST_TYPE_CODES.REGION_ENABLEMENT_QUOTA_INCREASE
  else if normalized == "aumento de cota" then REQUEST_TYPE_CODES.QUOTA_INCREASE
  else if normalized == "diminuição de cota" then REQUEST_TYPE_CODES.QUOTA_DECREASE
  else if normalized == "aumento de limite regional" then REQUEST_TYPE_CODES.REGION_LIMIT_INCREASE
  else if normalized == "instâncias reservadas" then REQUEST_TYPE_CODES.RESERVED_INSTANCES
  else REQUEST_TYPE_CODES.UNKNOWN

/-! ## Separator detection -/

/-- The loop of `detectSeparator`: per-character maxima of comma, tab and
semicolon counts over the first (up to) 20 lines, folded left as the loop
does.  The triple is `(maxCommas, maxTabs, maxSemicolons)`. -/
def sepCounts (lines : List String) : Nat × Nat × Nat :=
  (lines.take 20).foldl
    (fun acc line =>
      (max acc.1 (countChar ',' line),
       max acc.2.1 (countChar '\t' line),
       max acc.2.2 (countChar ';' line)))
    (0, 0, 0)

/-- `detectSeparator`: tab wins, then comma, then semicolon, defaulting
to tab. -/
def detectSeparator (lines : List String) : Char :=
  let counts := sepCounts lines
  let maxCommas := counts.1
  let maxTabs := counts.2.1
  let maxSemicolons := counts.2.2
  if maxTabs ≥ maxCommas ∧ maxTabs ≥ maxSemicolons ∧ maxTabs > 0 then '\t'
  else if maxCommas ≥ maxSemicolons ∧ maxCommas > 0 then ','
  else if maxSemicolons > 0 then ';'
  else '\t'

/-! ## Header location -/

/-- Does a parsed row contain an id-like cell
(`'id'`, `'rdquota'` or `'quotaid'` after lower-casing and trimming)? -/
def hasIdCell (row : List String) : Bool :=
  row.any (fun cell =>
    let v := jsTrim (jsLower cell)
    v == "id" || v == "rdquota" || v == "quotaid")

/-- The scan loop of `robustHeaderDetection`, carrying the current index. -/
def robustAux : Nat → List (List String) → Except TransformError HeaderInfo
  | _, [] => .error .MissingHeaderError
  | i, row :: rest =>
    if hasIdCell row then .ok ⟨i, row⟩ else robustAux (i + 1) rest

/-- `robustHeaderDetection`: first (topmost) row with an id-like cell. -/
def robustHeaderDetection (rows : List (List String)) : Except TransformError HeaderInfo :=
  robustAux 0 rows

/-- Header-map lookup: the index stored for a lower-cased key is that of the
last header whose lower-casing equals the key (later assignments win when
building the JS object). -/
def lastIdxOf (key : String) : List String → Option Nat
  | [] => none
  | h :: t =>
    match lastIdxOf key t with
    | some j => some (j + 1)
    | none => if jsLower h == key then some 0 else none

/-- `findColIndex`: first alias whose lower-casing is a key of the header
map; `none` plays the role of `-1`. -/
def findColIndex (headers : List String) (possibleNames : List String) : Option Nat :=
  possibleNames.findSome? (fun name => lastIdxOf (jsLower name) headers)

/-- The id-column aliases checked by `legacyHeaderDetection` and the
raw-export branch. -/
def idAliases : List String := ["ID", "RDQuota", "id", "rdquota", "QuotaId"]

/-- `legacyHeaderDetection`: row 0 is the header, but it must contain an
id-like column. -/
def legacyHeaderDetection (rows : List (List String)) : Except TransformError HeaderInfo :=
  match rows with
  | [] => .error .EmptyInputError
  | r0 :: _ =>
    if (findColIndex r0 idAliases).isSome then .ok ⟨0, r0⟩
    else .error .MissingHeaderError

/-- The orchestrator's header location with `USE_ROBUST_HEADER_DETECTION`
set: try the robust strategy, fall back to the legacy strategy on failure. -/
def locateHeader (rows : List (List String)) : Except TransformError HeaderInfo :=
  match robustHeaderDetection rows with
  | .ok info => .ok info
  | .error _ => legacyHeaderDetection rows

/-! ## Row normalization -/

/-- `values[idx]?.trim() || ''` with `idx !== -1 ? ... : ''`. -/
def getCell (values : List String) : Option Nat → String
  | none => ""
  | some i => jsTrim (values.getD i "")

/-- The headers whose joint presence switches the transform into
canonical-input mode (`criticalFinalHeaders`). -/
def criticalFinalHeaders : List String :=
  ["Subscription ID", "Request Type", "VM Type", "Region"]

/-- `isAlreadyTransformed`: every critical final header resolves. -/
def isAlreadyTransformed (headers : List String) : Bool :=
  criticalFinalHeaders.all (fun h => (findColIndex headers [h]).isSome)

/-- The status if-chain of the canonical-input branch. -/
def mapCanonicalStatus (status : String) : String :=
  if status == "Verification Successful" then "Approved"
  else if status == "Abandoned" then "Backlogged"
  else if status == "-" then "Pending Customer Response"
  else if status == "Fulfillment Actions Completed" then "Fulfilled"
  else status

/-- One row of the canonical-input branch of `transformData`. -/
def canonicalRow (headers : List String) (index : Nat) (values : List String) : TransformedRow :=
  let getVal := fun (colName : String) => getCell values (findColIndex headers [colName])
  let status := mapCanonicalStatus (getVal "Status")
  let requestTypeRaw := getVal "Request Type"
  let requestType := if requestTypeRaw == "" then "Unknown" else requestTypeRaw
  let requestTypeCode := mapDisplayTypeToCode requestType
  let originalId :=
    match findColIndex headers ["Original ID", "ID", "RDQuota"] with
    | some i =>
      let v := jsTrim (values.getD i "")
      if v == "" then s!"pre-transformed-{index}" else v
    | none => s!"pre-transformed-{index}"
  let zoneRaw := getVal "Zone"
  { subscriptionId := getVal "Subscription ID"
    requestType := requestType
    vmType := getVal "VM Type"
    region := cleanRegion (getVal "Region")
    zone := if zoneRaw == "" then "N/A" else zoneRaw
    cores := getVal "Cores"
    status := if status == "" then "Pending" else status
    originalId := originalId
    requestTypeCode := requestTypeCode }

/-- The canonical-input branch's emptiness filter: keep rows having any of
Subscription ID, VM Type or Region. -/
def canonicalKeep (row : TransformedRow) : Bool :=
  !(row.subscriptionId == "") || !(row.vmType == "") || !(row.region == "")

/-- Column indices resolved once per call by the raw-export branch. -/
structure RawCols where
  idIdx : Option Nat
  subIdIdx : Option Nat
  regionIdx : Option Nat
  ticketIdx : Option Nat
  constraintsIdx : Option Nat
  eventIdIdx : Option Nat
  reasonIdx : Option Nat
  skuIdx : Option Nat
deriving Repr, DecidableEq

/-- Alias resolution of the raw-export branch. -/
def resolveRawCols (headers : List String) : RawCols :=
  { idIdx := findColIndex headers idAliases
    subIdIdx := findColIndex headers ["Subscription ID", "SubscriptionId", "subscription id"]
    regionIdx := findColIndex headers ["Region", "Location", "region"]
    ticketIdx := findColIndex headers ["UTC Ticket", "Ticket", "Request Type", "Type"]
    constraintsIdx := findColIndex headers ["Deployment Constraints", "Zone", "Zones"]
    eventIdIdx := findColIndex headers ["Event ID", "Cores", "Core Count"]
    reasonIdx := findColIndex headers ["Reason", "Status", "State"]
    skuIdx := findColIndex headers ["SKU", "VM Type", "VmSize"] }

/-- The raw request-type switch: final label and code, with the
`originalRequestType || 'Unknown'` default for the label. -/
def rawRequestTypeInfo (orig : String) : String × String :=
  if orig == "AZ Enablement/Whitelisting" then
    ("Zonal Enablement", REQUEST_TYPE_CODES.ZONAL_ENABLEMENT)
  else if orig == "Region Enablement/Whitelisting" then
    ("Region Enablement", REQUEST_TYPE_CODES.REGIONAL_ENABLEMENT)
  else if orig == "Whitelisting/Quota Increase" then
    ("Region Enablement & Quota Increase", REQUEST_TYPE_CODES.REGION_ENABLEMENT_QUOTA_INCREASE)
  else if orig == "Quota Increase" then
    ("Quota Increase", REQUEST_TYPE_CODES.QUOTA_INCREASE)
  else if orig == "Quota Decrease" then
    ("Quota Decrease", REQUEST_TYPE_CODES.QUOTA_DECREASE)
  else if orig == "Region Limit Increase" then
    ("Region Limit Increase", REQUEST_TYPE_CODES.REGION_LIMIT_INCREASE)
  else if orig == "RI Enablement/Whitelisting" then
    ("Reserved Instances", REQUEST_TYPE_CODES.RESERVED_INSTANCES)
  else
    ((if orig == "" then "Unknown" else orig), REQUEST_TYPE_CODES.UNKNOWN)

/-- The status if-chain of the raw-export branch. -/
def mapRawStatus (status : String) : String :=
  if status == "Fulfillment Actions Completed" then "Fulfilled"
  else if status == "Verification Successful" then "Approved"
  else if status == "Abandoned" then "Backlogged"
  else if status == "-" then "Pending Customer Response"
  else status

/-- One row of the raw-export branch of `transformData`. -/
def rawRow (cols : RawCols) (values : List String) : TransformedRow :=
  let get := getCell values
  let originalRequestType := get cols.ticketIdx
  let cores0 := get cols.eventIdIdx
  let zone0 := get cols.constraintsIdx
  let cores :=
    if originalRequestType == "AZ Enablement/Whitelisting" then "N/A"
    else if cores0 == "-1" then "" else cores0
  let rt := rawRequestTypeInfo originalRequestType
  { subscriptionId := get cols.subIdIdx
    requestType := rt.1
    vmType := cleanVmType (get cols.skuIdx)
    region := cleanRegion (get cols.regionIdx)
    zone := if zone0 == "" then "N/A" else zone0
    cores := cores
    status := mapRawStatus (get cols.reasonIdx)
    originalId := get cols.idIdx
    requestTypeCode := rt.2 }

/-- The raw-export branch's filter: drop a row only when the zone is the
`"N/A"` sentinel and all of Subscription ID, VM Type, Region and
Request Type are empty. -/
def rawKeep (row : TransformedRow) : Bool :=
  !(row.zone == "N/A" && row.subscriptionId == "" && row.vmType == "" &&
    row.region == "" && row.requestType == "")

/-- Mode dispatch and per-mode processing of the data rows, including the
raw-export branch's required-column failures. -/
def processRows (headers : List String) (dataRows : List (List String)) :
    Except TransformError (List TransformedRow) :=
  if isAlreadyTransformed headers then
    .ok ((dataRows.enum.map (fun p => canonicalRow headers p.1 p.2)).filter canonicalKeep)
  else
    let cols := resolveRawCols headers
    if cols.idIdx.isNone then .error .MissingHeaderError
    else if cols.subIdIdx.isNone then .error (.MissingRequiredColumnError "Subscription ID")
    else if cols.regionIdx.isNone then .error (.MissingRequiredColumnError "Region")
    else .ok ((dataRows.map (rawRow cols)).filter rawKeep)

/-! ## Categorizer and orchestrator -/

/-- Insert one record into the insertion-ordered category groups. -/
def addToGroups (groups : List (String × List TransformedRow)) (row : TransformedRow) :
    List (String × List TransformedRow) :=
  if groups.any (fun g => g.1 == row.requestType) then
    groups.map (fun g => if g.1 == row.requestType then (g.1, g.2 ++ [row]) else g)
  else
    groups ++ [(row.requestType, [row])]

/-- Group records by final request-type label, insertion ordered. -/
def categorize (rows : List TransformedRow) : List (String × List TransformedRow) :=
  rows.foldl addToGroups []

/-- The non-empty lines of the cleaned, trimmed input. -/
def linesOf (s : String) : List String :=
  ((splitChars '\n' (jsTrim (cleanAzureDevOpsHeader s)).data).map String.mk).filter
    (fun line => !(jsTrim line == ""))

/-- Every line split by the detected separator, each cell trimmed and
quote-stripped. -/
def parsedRowsOf (s : String) : List (List String) :=
  let lines := linesOf s
  let separator := detectSeparator lines
  lines.map (fun line => (splitChars separator line.data).map (fun cs => stripQuotes (jsTrim ⟨cs⟩)))

/-- `transformData`: the whole pipeline, raw text in, canonical records and
category groups out, or one typed failure. -/
def transformData (rawInput : String) : Except TransformError TransformResult :=
  let cleanedInput := cleanAzureDevOpsHeader rawInput
  if jsTrim cleanedInput == "" then .error .EmptyInputError
  else
    let lines := linesOf rawInput
    if lines.length < 2 then .error .InsufficientRowsError
    else
      let parsedRows := parsedRowsOf rawInput
      match locateHeader parsedRows with
      | .error e => .error e
      | .ok info =>
        match processRows info.headers (parsedRows.drop (info.headerIndex + 1)) with
        | .error e => .error e
        | .ok processed =>
          if processed.isEmpty then .error .NoValidRowsError
          else .ok ⟨processed, categorize processed⟩

/-! ## Canonical serialization (clipboard export, `CopyButton`) -/

/-- The canonical header set in fixed order (`finalHeaders`). -/
def finalHeaders : List String :=
  ["Subscription ID", "Request Type", "VM Type", "Region", "Zone", "Cores", "Status"]

/-- `row[h]` for the string-valued keys of a `TransformedRow`. -/
def getField (row : TransformedRow) (h : String) : String :=
  if h == "Subscription ID" then row.subscriptionId
  else if h == "Request Type" then row.requestType
  else if h == "VM Type" then row.vmType
  else if h == "Region" then row.region
  else if h == "Zone" then row.zone
  else if h == "Cores" then row.cores
  else if h == "Status" then row.status
  else if h == "Original ID" then row.originalId
  else ""

/-- `generateTsvContent`: header line plus one tab-joined line per record,
each cell passed through `cleanValue`. -/
def generateTsvContent (headers : List String) (data : List TransformedRow) : String :=
  let headerRow := joinWith '\t' headers
  let dataRows :=
    joinWith '\n' (data.map (fun row => joinWith '\t' (headers.map (fun h => cleanValue (getField row h)))))
  headerRow ++ "\n" ++ dataRows

/-! ## Spec-side reformulations (for comparison with the source behavior) -/

/-- Per-character maximum of a separator count over the first (up to) 20
scanned lines, stated independently of the detector's fold. -/
def maxSep (c : Char) (lines : List String) : Nat :=
  ((lines.take 20).map (countChar c)).foldl max 0

/-- Remove one trailing case-insensitive `"(XIO)"` marker, if present. -/
def stripTrailingXio (l : List Char) : List Char :=
  match l.reverse with
  | e :: d :: c :: b :: a :: rest =>
    if isXioQuint a b c d e then rest.reverse else l
  | _ => l

/-- The spec's description of `cleanVmType`: remove a trailing `"(XIO)"`
marker (any letter case) and trim the surrounding whitespace. -/
def specCleanVmType (value : String) : String :=
  ⟨trimChars (stripTrailingXio value.data)⟩

/-! ## Concrete inputs used in counterexamples and witnesses -/

/-- A raw export whose only data row has empty Subscription ID, VM Type,
Region and Request Type cells (the `Extra` cell keeps the line non-blank),
so its Zone defaults to `"N/A"`. -/
def emptyRowRawInput : String :=
  "ID\tSubscription ID\tRegion\tSKU\tUTC Ticket\tDeployment Constraints\tExtra\nx\t\t\t\t\t\t"

/-- The record the raw-export branch produces for the empty data row of
`emptyRowRawInput`. -/
def emptyRowRecord : TransformedRow :=
  { subscriptionId := "", requestType := "Unknown", vmType := "", region := ""
    zone := "N/A", cores := "", status := "", originalId := "x"
    requestTypeCode := "UNKNOWN" }

/-- A small raw export with one fully populated data row. -/
def quotaRawInput : String :=
  "ID\tSubscription ID\tRegion\tSKU\tUTC Ticket\nRD1\tsub-1\tEast US\tDSv3\tQuota Increase"

/-- The record `transformData` produces for `quotaRawInput`. -/
def quotaRecord : TransformedRow :=
  { subscriptionId := "sub-1", requestType := "Quota Increase", vmType := "DSv3"
    region := "East US", zone := "N/A", cores := "", status := ""
    originalId := "RD1", requestTypeCode := "QUOTA_INCREASE" }

/-- A line with five tabs, two commas and seven semicolons. -/
def mixedSepLine : String := "\t\t\t\t\t,,;;;;;;;"

/-- A header-only buffer: one header line, no data line. -/
def headerOnlyInput : String := "Subscription ID\tRegion\n"

end TableParser

/-! # Supporting lemmas -/

namespace TableParser

theorem robustAux_ok (rows : List (List String)) :
    ∀ (i : Nat) (info : HeaderInfo), robustAux i rows = .ok info →
      ∃ k, info.headerIndex = i + k ∧ k < rows.length ∧
        rows.getD k [] = info.headers ∧ hasIdCell info.headers = true ∧
        ∀ j < k, hasIdCell (rows.getD j []) = false := by
  induction rows with
  | nil => intro i info h; simp [robustAux] at h
  | cons r rest ih =>
    intro i info h
    by_cases hr : hasIdCell r
    · simp [robustAux, hr] at h
      refine ⟨0, ?_, ?_, ?_, ?_, ?_⟩
      · simp [← h]
      · simp
      · simp [← h]
      · simp [← h, hr]
      · intro j hj; omega
    · simp [robustAux, hr] at h
      obtain ⟨k, hk1, hk2, hk3, hk4, hk5⟩ := ih (i + 1) info h
      refine ⟨k + 1, by omega, by simp; omega, by simpa using hk3, hk4, ?_⟩
      intro j hj
      cases j with
      | zero => simpa using hr
      | succ j' => simpa using hk5 j' (by omega)

theorem robustAux_all_error {rows : List (List String)}
    (h : ∀ r ∈ rows, hasIdCell r = false) :
    ∀ i, robustAux i rows = .error .MissingHeaderError := by
  induction rows with
  | nil => intro i; rfl
  | cons r rest ih =>
    intro i
    rw [robustAux, if_neg (by simp [h r (List.mem_cons_self r rest)])]
    exact ih (fun r2 hr2 => h r2 (List.mem_cons_of_mem _ hr2)) (i + 1)

theorem lastIdxOf_some {key : String} {l : List String} {i : Nat}
    (h : lastIdxOf key l = some i) : ∃ s ∈ l, jsLower s = key := by
  induction l generalizing i with
  | nil => simp [lastIdxOf] at h
  | cons x xs ih =>
    rw [lastIdxOf] at h
    rcases hx : lastIdxOf key xs with _ | j
    · rw [hx] at h
      simp only [] at h
      split at h
      · exact ⟨x, List.mem_cons_self x xs, by simpa using ‹(jsLower x == key) = true›⟩
      · simp at h
    · obtain ⟨s, hs, hlow⟩ := ih hx
      exact ⟨s, List.mem_cons_of_mem _ hs, hlow⟩

theorem findColIndex_id_none {r : List String} (h : hasIdCell r = false) :
    findColIndex r idAliases = none := by
  rcases heq : findColIndex r idAliases with _ | i
  · rfl
  · exfalso
    obtain ⟨name, hname, hlast⟩ := List.exists_of_findSome?_eq_some heq
    obtain ⟨cell, hcell, hlow⟩ := lastIdxOf_some hlast
    have hid : jsLower cell = "id" ∨ jsLower cell = "rdquota" ∨ jsLower cell = "quotaid" := by
      simp only [idAliases, List.mem_cons, List.not_mem_nil, or_false] at hname
      rcases hname with rfl | rfl | rfl | rfl | rfl
      · exact Or.inl (by simpa using hlow)
      · exact Or.inr (Or.inl (by simpa using hlow))
      · exact Or.inl (by simpa using hlow)
      · exact Or.inr (Or.inl (by simpa using hlow))
      · exact Or.inr (Or.inr (by simpa using hlow))
    have hcid : hasIdCell r = true := by
      rw [hasIdCell, List.any_eq_true]
      refine ⟨cell, hcell, ?_⟩
      rcases hid with hv | hv | hv <;> rw [hv] <;> decide
    rw [hcid] at h
    simp at h

theorem foldl_triple (L : List String) :
    ∀ a b c : Nat,
      L.foldl (fun acc line =>
          (max acc.1 (countChar ',' line), max acc.2.1 (countChar '\t' line),
           max acc.2.2 (countChar ';' line))) (a, b, c) =
        (L.foldl (fun x line => max x (countChar ',' line)) a,
         L.foldl (fun x line => max x (countChar '\t' line)) b,
         L.foldl (fun x line => max x (countChar ';' line)) c) := by
  induction L with
  | nil => intro a b c; rfl
  | cons l L ih => intro a b c; simp only [List.foldl_cons]; exact ih _ _ _

theorem sepCounts_eq (lines : List String) :
    sepCounts lines = (maxSep ',' lines, maxSep '\t' lines, maxSep ';' lines) := by
  unfold sepCounts maxSep
  rw [List.foldl_map, List.foldl_map, List.foldl_map]
  exact foldl_triple _ 0 0 0

theorem rawRequestTypeInfo_fst_ne (orig : String) : (rawRequestTypeInfo orig).1 ≠ "" := by
  unfold rawRequestTypeInfo
  split_ifs <;> simp_all

theorem rawKeep_always (cols : RawCols) (values : List String) :
    rawKeep (rawRow cols values) = true := by
  have h := rawRequestTypeInfo_fst_ne (getCell values cols.ticketIdx)
  simp [rawKeep, rawRow]
  exact Or.inr h

end TableParser

/-! # Claims -/

namespace TableParser

/-- C1 counterexample: on a raw-export input whose only data row has empty
Subscription ID, VM Type, Region and Request Type cells and a Zone defaulted
to `"N/A"`, `transformData` does NOT fail with `NoValidRowsError`: the row is
kept (its Request Type defaults to `"Unknown"`) and the call succeeds. -/
theorem C1_empty_row_counterexample :
    transformData emptyRowRawInput =
      .ok ⟨[emptyRowRecord], [("Unknown", [emptyRowRecord])]⟩ ∧
    transformData emptyRowRawInput ≠ .error .NoValidRowsError := by
  constructor
  · rfl
  · intro h
    rw [show transformData emptyRowRawInput =
        .ok ⟨[emptyRowRecord], [("Unknown", [emptyRowRecord])]⟩ from rfl] at h
    exact Except.noConfusion h

/-- C1 (amended): the raw-export post-processing filter keeps every produced
record, because the final Request Type defaults to `"Unknown"` and is never
empty; in particular the fully-empty-after-defaults scenario succeeds with
that single row (Zone `"N/A"`, Request Type `"Unknown"`) instead of failing
with `NoValidRowsError`. -/
theorem C1_raw_filter_keeps_all :
    (∀ (cols : RawCols) (values : List String), rawKeep (rawRow cols values) = true) ∧
    transformData emptyRowRawInput =
      .ok ⟨[emptyRowRecord], [("Unknown", [emptyRowRecord])]⟩ :=
  ⟨rawKeep_always, rfl⟩

/-- C2: the primary (row-scan) strategy selects the first (topmost) parsed
row containing an id-like cell (`"id"`, `"rdquota"`, `"quotaid"` after
lower-casing and trimming); the orchestrator uses the primary result whenever
it succeeds and falls back to the first-row strategy only when it raises; in
particular when rows 0 and 1 have no id-like cell and row 2 does, the located
header index is 2. -/
theorem C2_header_location :
    (∀ (r0 r1 r2 : List String) (rest : List (List String)),
      hasIdCell r0 = false → hasIdCell r1 = false → hasIdCell r2 = true →
      robustHeaderDetection (r0 :: r1 :: r2 :: rest) = .ok ⟨2, r2⟩ ∧
      locateHeader (r0 :: r1 :: r2 :: rest) = .ok ⟨2, r2⟩) ∧
    (∀ (rows : List (List String)) (info : HeaderInfo),
      robustHeaderDetection rows = .ok info → locateHeader rows = .ok info) ∧
    (∀ (rows : List (List String)) (info : HeaderInfo),
      robustHeaderDetection rows = .ok info →
        info.headerIndex < rows.length ∧
        rows.getD info.headerIndex [] = info.headers ∧
        hasIdCell info.headers = true ∧
        ∀ j < info.headerIndex, hasIdCell (rows.getD j []) = false) ∧
    (∀ (rows : List (List String)) (e : TransformError),
      robustHeaderDetection rows = .error e →
        locateHeader rows = legacyHeaderDetection rows) := by
  refine ⟨?_, ?_, ?_, ?_⟩
  · intro r0 r1 r2 rest h0 h1 h2
    constructor
    · simp [robustHeaderDetection, robustAux, h0, h1, h2]
    · simp [locateHeader, robustHeaderDetection, robustAux, h0, h1, h2]
  · intro rows info h
    simp [locateHeader, h]
  · intro rows info h
    obtain ⟨k, hk1, hk2, hk3, hk4, hk5⟩ := robustAux_ok rows 0 info h
    simp only [Nat.zero_add] at hk1
    subst hk1
    exact ⟨hk2, hk3, hk4, hk5⟩
  · intro rows e h
    simp [locateHeader, h]

/-- C2 witness: concrete rows where rows 0 and 1 are not id-like and
row 2 is; the primary strategy and the orchestrator both pick index 2. -/
theorem C2_header_location_witness :
    robustHeaderDetection [["banner"], ["note"], ["ID", "Region"]] =
      .ok ⟨2, ["ID", "Region"]⟩ ∧
    locateHeader [["banner"], ["note"], ["ID", "Region"]] =
      .ok ⟨2, ["ID", "Region"]⟩ :=
  C2_header_location.1 ["banner"] ["note"] ["ID", "Region"] []
    (by decide) (by decide) (by decide)

/-- C3: a dataset is processed in canonical-input mode iff aliases for all
four of Subscription ID, Request Type, VM Type and Region resolve against the
located header row's map; the mode is a function of the header row alone,
fixed before any data row is normalized, and each mode processes every data
row with its own normalizer. -/
theorem C3_shape_detection :
    (∀ headers : List String,
      isAlreadyTransformed headers = true ↔
        ((findColIndex headers ["Subscription ID"]).isSome ∧
         (findColIndex headers ["Request Type"]).isSome ∧
         (findColIndex headers ["VM Type"]).isSome ∧
         (findColIndex headers ["Region"]).isSome)) ∧
    (∀ (headers : List String) (dataRows : List (List String)),
      isAlreadyTransformed headers = true →
        processRows headers dataRows =
          .ok ((dataRows.enum.map (fun p => canonicalRow headers p.1 p.2)).filter canonicalKeep)) ∧
    (∀ (headers : List String) (dataRows : List (List String))
        (result : List TransformedRow),
      isAlreadyTransformed headers = false →
        processRows headers dataRows = .ok result →
        result = (dataRows.map (rawRow (resolveRawCols headers))).filter rawKeep) := by
  refine ⟨?_, ?_, ?_⟩
  · intro headers
    simp [isAlreadyTransformed, criticalFinalHeaders]
  · intro headers dataRows h
    simp [processRows, h]
  · intro headers dataRows result h hok
    simp [processRows, h] at hok
    split at hok
    · exact absurd hok (by simp)
    · split at hok
      · exact absurd hok (by simp)
      · split at hok
        · exact absurd hok (by simp)
        · exact (by simpa using hok.symm)

/-- C3 witness: with the four critical headers present the canonical branch
is taken on a concrete data row. -/
theorem C3_shape_detection_witness :
    isAlreadyTransformed ["Subscription ID", "Request Type", "VM Type", "Region"] = true ∧
    processRows ["Subscription ID", "Request Type", "VM Type", "Region"]
        [["s1", "Quota Increase", "DSv3", "East US"]] =
      .ok (([["s1", "Quota Increase", "DSv3", "East US"]].enum.map
        (fun p => canonicalRow ["Subscription ID", "Request Type", "VM Type", "Region"] p.1 p.2)).filter
          canonicalKeep) :=
  ⟨by decide,
   C3_shape_detection.2.1 ["Subscription ID", "Request Type", "VM Type", "Region"]
     [["s1", "Quota Increase", "DSv3", "East US"]] (by decide)⟩

/-- C4: in raw-export mode, a raw request type of exactly
`"AZ Enablement/Whitelisting"` forces `Cores = "N/A"` (with label
`"Zonal Enablement"` and code `ZONAL_ENABLEMENT`) regardless of the raw cores
value; otherwise a raw cores value of the literal `"-1"` yields `Cores = ""`. -/
theorem C4_cores_special_casing (cols : RawCols) (values : List String) :
    (getCell values cols.ticketIdx = "AZ Enablement/Whitelisting" →
      (rawRow cols values).cores = "N/A" ∧
      (rawRow cols values).requestType = "Zonal Enablement" ∧
      (rawRow cols values).requestTypeCode = REQUEST_TYPE_CODES.ZONAL_ENABLEMENT) ∧
    (getCell values cols.ticketIdx ≠ "AZ Enablement/Whitelisting" →
      getCell values cols.eventIdIdx = "-1" →
      (rawRow cols values).cores = "") := by
  constructor
  · intro h
    simp [rawRow, rawRequestTypeInfo, h, REQUEST_TYPE_CODES.ZONAL_ENABLEMENT]
  · intro h1 h2
    simp [rawRow, h2, h1]

/-- C4 witness: a concrete zonal-enablement row receives `Cores = "N/A"`
even though its raw cores cell is `"64"`. -/
theorem C4_cores_special_casing_witness :
    getCell ["AZ Enablement/Whitelisting", "64"] (some 0) = "AZ Enablement/Whitelisting" ∧
    ((rawRow ⟨none, none, none, some 0, none, some 1, none, none⟩
        ["AZ Enablement/Whitelisting", "64"]).cores = "N/A" ∧
     (rawRow ⟨none, none, none, some 0, none, some 1, none, none⟩
        ["AZ Enablement/Whitelisting", "64"]).requestType = "Zonal Enablement" ∧
     (rawRow ⟨none, none, none, some 0, none, some 1, none, none⟩
        ["AZ Enablement/Whitelisting", "64"]).requestTypeCode =
       REQUEST_TYPE_CODES.ZONAL_ENABLEMENT) :=
  ⟨by decide,
   (C4_cores_special_casing ⟨none, none, none, some 0, none, some 1, none, none⟩
     ["AZ Enablement/Whitelisting", "64"]).1 (by decide)⟩

end TableParser

/-! # Further supporting lemmas (whitespace, splitting, XIO removal) -/

namespace TableParser

theorem trimChars_nil_of_ws {l : List Char} (h : ∀ c ∈ l, wsChar c = true) :
    trimChars l = [] := by
  unfold trimChars
  rw [List.dropWhile_eq_nil_iff.mpr h]
  simp

theorem ws_of_trimChars_nil {l : List Char} (h : trimChars l = []) :
    ∀ c ∈ l, wsChar c = true := by
  unfold trimChars at h
  rw [List.reverse_eq_nil_iff, List.dropWhile_eq_nil_iff] at h
  intro c hc
  rw [← List.takeWhile_append_dropWhile (p := wsChar) (l := l)] at hc
  rcases List.mem_append.mp hc with h1 | h1
  · exact List.mem_takeWhile_imp h1
  · exact h c (List.mem_reverse.mpr h1)

theorem splitChars_ne_nil (sep : Char) (l : List Char) : splitChars sep l ≠ [] := by
  cases l with
  | nil => simp [splitChars]
  | cons c cs =>
    rw [splitChars]
    split
    · simp
    · split <;> simp

theorem mem_of_mem_splitChars {sep : Char} {l piece : List Char} {c : Char}
    (hp : piece ∈ splitChars sep l) (hc : c ∈ piece) : c ∈ l := by
  induction l generalizing piece with
  | nil =>
    simp [splitChars] at hp
    subst hp
    simp at hc
  | cons x xs ih =>
    rw [splitChars] at hp
    by_cases hx : x = sep
    · simp only [hx, beq_self_eq_true, if_true, List.mem_cons] at hp
      rcases hp with rfl | hp
      · simp at hc
      · exact List.mem_cons_of_mem _ (ih hp hc)
    · simp only [beq_eq_false_iff_ne.mpr hx, Bool.false_eq_true, if_false] at hp
      rcases hr : splitChars sep xs with _ | ⟨h0, t⟩
      · exact absurd hr (splitChars_ne_nil sep xs)
      · rw [hr] at hp
        rcases List.mem_cons.mp hp with rfl | hp2
        · rcases List.mem_cons.mp hc with rfl | hc2
          · exact List.mem_cons_self _ _
          · exact List.mem_cons_of_mem _ (ih (hr ▸ List.mem_cons_self h0 t) hc2)
        · exact List.mem_cons_of_mem _ (ih (hr ▸ List.mem_cons_of_mem h0 hp2) hc)

theorem toLower_ws_ne_t {c : Char} (h : wsChar c = true) : c.toLower ≠ 't' := by
  simp only [wsChar, Bool.or_eq_true, beq_iff_eq] at h
  rcases h with ((h | h) | h) | h <;> subst h <;> decide

theorem stripTitleLine_ws {piece : List Char} (h : ∀ c ∈ piece, wsChar c = true) :
    stripTitleLine ⟨piece⟩ = "" := by
  have hci : startsWithCI "title:" ⟨piece⟩ = false := by
    unfold startsWithCI
    cases piece with
    | nil => rfl
    | cons c cs =>
      have hne := toLower_ws_ne_t (h c (List.mem_cons_self c cs))
      simp only [List.map_cons]
      simp [List.isPrefixOf, beq_eq_false_iff_ne.mpr (Ne.symm hne)]
  rw [stripTitleLine, hci]
  simp only [Bool.false_eq_true, if_false]
  show (⟨trimChars piece⟩ : String) = ""
  rw [trimChars_nil_of_ws h]

theorem joinWith_nl_ws {ls : List String} (h : ∀ s ∈ ls, s = "") :
    ∀ c ∈ (joinWith '\n' ls).data, wsChar c = true := by
  induction ls with
  | nil => intro c hc; simp [joinWith] at hc
  | cons s rest ih =>
    intro c hc
    cases rest with
    | nil =>
      rw [joinWith] at hc
      rw [h s (List.mem_cons_self s [])] at hc
      simp at hc
    | cons s2 rest2 =>
      rw [joinWith] at hc
      rw [h s (List.mem_cons_self _ _)] at hc
      simp only [String.data_append] at hc
      rcases List.mem_append.mp hc with h1 | h1
      · rcases List.mem_append.mp h1 with h2 | h2
        · simp at h2
        · simp only [List.mem_singleton] at h2
          subst h2; rfl
      · exact ih (fun t ht => h t (List.mem_cons_of_mem _ ht)) c h1

theorem clean_blank_of_blank {s : String} (h : jsTrim s = "") :
    jsTrim (cleanAzureDevOpsHeader s) = "" := by
  by_cases hs : s = ""
  · subst hs; rfl
  · have hdata : trimChars s.data = [] := congrArg String.data h
    have hws : ∀ c ∈ s.data, wsChar c = true := ws_of_trimChars_nil hdata
    rw [cleanAzureDevOpsHeader, if_neg (by simp [hs])]
    have hpieces : ∀ t ∈ (splitChars '\n' s.data).map (fun cs => stripTitleLine ⟨cs⟩), t = "" := by
      intro t ht
      simp only [List.mem_map] at ht
      obtain ⟨cs, hcs, rfl⟩ := ht
      exact stripTitleLine_ws (fun c hc => hws c (mem_of_mem_splitChars hcs hc))
    show (⟨trimChars _⟩ : String) = ""
    rw [trimChars_nil_of_ws (joinWith_nl_ws hpieces)]

theorem containsXio_short (l : List Char) (h : l.length < 5) : containsXio l = false := by
  match l with
  | [] => rfl
  | [_] => rfl
  | [_, _] => rfl
  | [_, _, _] => rfl
  | [_, _, _, _] => rfl
  | _ :: _ :: _ :: _ :: _ :: _ => simp at h; omega

theorem containsXio_cons_false {c : Char} {l : List Char}
    (h : containsXio (c :: l) = false) : containsXio l = false := by
  match l, h with
  | b :: d :: e :: f :: rest, h =>
    rw [containsXio] at h
    simp only [Bool.or_eq_false_iff] at h
    exact h.2
  | [], _ => rfl
  | [_], _ => rfl
  | [_, _], _ => rfl
  | [_, _, _], _ => rfl

theorem removeXio_no_match (l : List Char) (h : containsXio l = false) :
    removeXio l = l := by
  induction l using removeXio.induct with
  | case1 a b c d e rest hq =>
    rw [containsXio, hq] at h
    simp at h
  | case2 a b c d e rest hq ih =>
    rw [containsXio] at h
    simp only [Bool.or_eq_false_iff] at h
    rw [removeXio, if_neg (by simp [hq])]
    rw [ih h.2]
  | case3 a rest hne ih =>
    rw [removeXio]
    · rw [ih (containsXio_cons_false h)]
    · exact hne
  | case4 => rfl

theorem removeXio_append_marker (m1 m2 m3 m4 m5 : Char)
    (hm : [m1, m2, m3, m4, m5].map Char.toLower = xioChars) :
    ∀ a : List Char, containsXio a = false →
      removeXio (a ++ [m1, m2, m3, m4, m5]) = a := by
  simp only [xioChars, List.map, List.cons.injEq, and_true] at hm
  obtain ⟨h1, h2, h3, h4, h5⟩ := hm
  have quintm : isXioQuint m1 m2 m3 m4 m5 = true := by
    simp [isXioQuint, h1, h2, h3, h4, h5]
  intro a
  induction a with
  | nil =>
    intro _
    simp [removeXio, quintm]
  | cons x a' ih =>
    intro h
    have ha' : containsXio a' = false := containsXio_cons_false h
    match a' with
    | [] =>
      simp only [List.cons_append, List.nil_append]
      rw [removeXio, if_neg (by simp [isXioQuint, h1])]
      exact congrArg (x :: ·) (ih ha')
    | [b] =>
      simp only [List.cons_append, List.nil_append]
      rw [removeXio, if_neg (by simp [isXioQuint, h1])]
      exact congrArg (x :: ·) (ih ha')
    | [b, c] =>
      simp only [List.cons_append, List.nil_append]
      rw [removeXio, if_neg (by simp [isXioQuint, h1])]
      exact congrArg (x :: ·) (ih ha')
    | [b, c, d] =>
      simp only [List.cons_append, List.nil_append]
      rw [removeXio, if_neg (by simp [isXioQuint, h1])]
      exact congrArg (x :: ·) (ih ha')
    | b :: c :: d :: e :: a'' =>
      have hq : isXioQuint x b c d e = false := by
        rw [containsXio] at h
        simpa using (Bool.or_eq_false_iff.mp h).1
      simp only [List.cons_append]
      rw [removeXio, if_neg (by simp [hq])]
      have hstep := ih ha'
      simp only [List.cons_append] at hstep
      exact congrArg (x :: ·) hstep

theorem stripTrailingXio_append (m1 m2 m3 m4 m5 : Char)
    (hm : [m1, m2, m3, m4, m5].map Char.toLower = xioChars) (a : List Char) :
    stripTrailingXio (a ++ [m1, m2, m3, m4, m5]) = a := by
  simp only [xioChars, List.map, List.cons.injEq, and_true] at hm
  obtain ⟨h1, h2, h3, h4, h5⟩ := hm
  have quintm : isXioQuint m1 m2 m3 m4 m5 = true := by
    simp [isXioQuint, h1, h2, h3, h4, h5]
  have hrev : (a ++ [m1, m2, m3, m4, m5]).reverse =
      m5 :: m4 :: m3 :: m2 :: m1 :: a.reverse := by simp
  rw [stripTrailingXio.eq_def, hrev]
  simp [quintm]

end TableParser

/-! # Claims C5 - C10 -/

namespace TableParser

/-- C5 counterexample: serializing the transform's output with the canonical
7-column header and feeding it back does not reach canonical-input mode at
all — the canonical header set contains no id-like column, so the second call
fails with `MissingHeaderError` instead of reproducing codes and statuses. -/
theorem C5_round_trip_counterexample :
    transformData quotaRawInput = .ok ⟨[quotaRecord], [("Quota Increase", [quotaRecord])]⟩ ∧
    transformData (generateTsvContent finalHeaders [quotaRecord]) =
      .error .MissingHeaderError :=
  ⟨rfl, rfl⟩

/-- C5 (amended): whenever the canonical-header serialization of any record
list yields at least two non-empty lines and none of its parsed cells is
id-like, feeding it back into `transformData` fails with
`MissingHeaderError`; the canonical headers themselves are never id-like, so
the round trip cannot run in canonical-input mode without an injected
id-like column (such as `RDQuota`). -/
theorem C5_round_trip_fails (rows : List TransformedRow)
    (h2 : 2 ≤ (linesOf (generateTsvContent finalHeaders rows)).length)
    (hnoid : (parsedRowsOf (generateTsvContent finalHeaders rows)).all
      (fun r => !(hasIdCell r)) = true) :
    transformData (generateTsvContent finalHeaders rows) = .error .MissingHeaderError := by
  set t := generateTsvContent finalHeaders rows with ht
  have hall : ∀ r ∈ parsedRowsOf t, hasIdCell r = false := by
    intro r hr
    simpa using List.all_eq_true.mp hnoid r hr
  have hne : ¬ jsTrim (cleanAzureDevOpsHeader t) = "" := by
    intro hblank
    have hl : linesOf t = [] := by rw [linesOf, hblank]; rfl
    rw [hl] at h2
    simp at h2
  have hrob : robustHeaderDetection (parsedRowsOf t) = .error .MissingHeaderError :=
    robustAux_all_error hall 0
  have hplen : 2 ≤ (parsedRowsOf t).length := by
    rw [parsedRowsOf]
    simpa using h2
  obtain ⟨r0, rest, hpr⟩ : ∃ r0 rest, parsedRowsOf t = r0 :: rest := by
    cases hp : parsedRowsOf t with
    | nil => rw [hp] at hplen; simp at hplen
    | cons a b => exact ⟨a, b, rfl⟩
  have hr0 : hasIdCell r0 = false := hall r0 (by rw [hpr]; exact List.mem_cons_self _ _)
  have hleg : legacyHeaderDetection (parsedRowsOf t) = .error .MissingHeaderError := by
    rw [hpr, legacyHeaderDetection]
    rw [findColIndex_id_none hr0]
    rfl
  have hloc : locateHeader (parsedRowsOf t) = .error .MissingHeaderError := by
    rw [locateHeader, hrob, hleg]
  have hlt : ¬ (linesOf t).length < 2 := by omega
  simp [transformData, beq_eq_false_iff_ne.mpr hne, hlt, hloc]

/-- C5 witness: the amended statement applied to the concrete one-record
output of `quotaRawInput`. -/
theorem C5_round_trip_fails_witness :
    2 ≤ (linesOf (generateTsvContent finalHeaders [quotaRecord])).length ∧
    (parsedRowsOf (generateTsvContent finalHeaders [quotaRecord])).all
      (fun r => !(hasIdCell r)) = true ∧
    transformData (generateTsvContent finalHeaders [quotaRecord]) =
      .error .MissingHeaderError :=
  ⟨by decide, by decide, C5_round_trip_fails [quotaRecord] (by decide) (by decide)⟩

/-- C6 counterexample: a buffer whose sampled lines yield `tabCount = 5` and
`commaCount = 2` but `semicolonCount = 7` detects the semicolon, not the tab,
so the claim's "any buffer with tabCount=5 and commaCount=2 detects tab" is
false as stated. -/
theorem C6_detect_counterexample :
    maxSep '\t' [mixedSepLine] = 5 ∧ maxSep ',' [mixedSepLine] = 2 ∧
    detectSeparator [mixedSepLine] = ';' ∧ (';' : Char) ≠ '\t' := by
  refine ⟨by decide, by decide, by decide, by decide⟩

/-- C6 (amended): the decision order over the per-character maxima of the
first up-to-20 lines is exactly as claimed (tab, then comma, then semicolon,
then tab by default); the particular instance holds once the semicolon
maximum is also bounded by the tab count: tabCount = 5, commaCount = 2 and
semicolonCount ≤ 5 detect tab. -/
theorem C6_detect_decision (lines : List String) :
    ((maxSep '\t' lines ≥ maxSep ',' lines ∧ maxSep '\t' lines ≥ maxSep ';' lines ∧
        maxSep '\t' lines > 0) → detectSeparator lines = '\t') ∧
    (¬(maxSep '\t' lines ≥ maxSep ',' lines ∧ maxSep '\t' lines ≥ maxSep ';' lines ∧
        maxSep '\t' lines > 0) →
      (maxSep ',' lines ≥ maxSep ';' lines ∧ maxSep ',' lines > 0) →
      detectSeparator lines = ',') ∧
    (¬(maxSep '\t' lines ≥ maxSep ',' lines ∧ maxSep '\t' lines ≥ maxSep ';' lines ∧
        maxSep '\t' lines > 0) →
      ¬(maxSep ',' lines ≥ maxSep ';' lines ∧ maxSep ',' lines > 0) →
      maxSep ';' lines > 0 → detectSeparator lines = ';') ∧
    (¬(maxSep '\t' lines ≥ maxSep ',' lines ∧ maxSep '\t' lines ≥ maxSep ';' lines ∧
        maxSep '\t' lines > 0) →
      ¬(maxSep ',' lines ≥ maxSep ';' lines ∧ maxSep ',' lines > 0) →
      ¬(maxSep ';' lines > 0) → detectSeparator lines = '\t') ∧
    (maxSep '\t' lines = 5 → maxSep ',' lines = 2 → maxSep ';' lines ≤ 5 →
      detectSeparator lines = '\t') := by
  have hd : detectSeparator lines =
      (if maxSep '\t' lines ≥ maxSep ',' lines ∧ maxSep '\t' lines ≥ maxSep ';' lines ∧
          maxSep '\t' lines > 0 then '\t'
       else if maxSep ',' lines ≥ maxSep ';' lines ∧ maxSep ',' lines > 0 then ','
       else if maxSep ';' lines > 0 then ';'
       else '\t') := by
    unfold detectSeparator
    rw [sepCounts_eq]
  refine ⟨?_, ?_, ?_, ?_, ?_⟩
  · intro h; rw [hd, if_pos h]
  · intro h1 h2; rw [hd, if_neg h1, if_pos h2]
  · intro h1 h2 h3; rw [hd, if_neg h1, if_neg h2, if_pos h3]
  · intro h1 h2 h3; rw [hd, if_neg h1, if_neg h2, if_neg h3]
  · intro h1 h2 h3
    rw [hd, if_pos]
    omega

/-- C6 witness: a line with five tabs, two commas and no semicolons
detects tab, via the amended instance. -/
theorem C6_detect_decision_witness :
    maxSep '\t' ["a\tb\tc\td\te\tf,g,h"] = 5 ∧
    maxSep ',' ["a\tb\tc\td\te\tf,g,h"] = 2 ∧
    maxSep ';' ["a\tb\tc\td\te\tf,g,h"] ≤ 5 ∧
    detectSeparator ["a\tb\tc\td\te\tf,g,h"] = '\t' :=
  ⟨by decide, by decide, by decide,
   (C6_detect_decision ["a\tb\tc\td\te\tf,g,h"]).2.2.2.2 (by decide) (by decide) (by decide)⟩

/-- C7: in raw-export mode the resolved status value maps
`"Abandoned" → "Backlogged"`, `"-" → "Pending Customer Response"`,
`"Fulfillment Actions Completed" → "Fulfilled"`,
`"Verification Successful" → "Approved"`, and any other value passes through
to the record unchanged. -/
theorem C7_status_mapping (cols : RawCols) (values : List String) :
    (getCell values cols.reasonIdx = "Abandoned" →
      (rawRow cols values).status = "Backlogged") ∧
    (getCell values cols.reasonIdx = "-" →
      (rawRow cols values).status = "Pending Customer Response") ∧
    (getCell values cols.reasonIdx = "Fulfillment Actions Completed" →
      (rawRow cols values).status = "Fulfilled") ∧
    (getCell values cols.reasonIdx = "Verification Successful" →
      (rawRow cols values).status = "Approved") ∧
    (getCell values cols.reasonIdx ≠ "Fulfillment Actions Completed" →
      getCell values cols.reasonIdx ≠ "Verification Successful" →
      getCell values cols.reasonIdx ≠ "Abandoned" →
      getCell values cols.reasonIdx ≠ "-" →
      (rawRow cols values).status = getCell values cols.reasonIdx) := by
  refine ⟨?_, ?_, ?_, ?_, ?_⟩
  · intro h; simp [rawRow, mapRawStatus, h]
  · intro h; simp [rawRow, mapRawStatus, h]
  · intro h; simp [rawRow, mapRawStatus, h]
  · intro h; simp [rawRow, mapRawStatus, h]
  · intro h1 h2 h3 h4; simp [rawRow, mapRawStatus, h1, h2, h3, h4]

/-- C7 witness: a concrete row with raw status `"Abandoned"` receives
status `"Backlogged"`. -/
theorem C7_status_mapping_witness :
    getCell ["Abandoned"] (some 0) = "Abandoned" ∧
    (rawRow ⟨none, none, none, none, none, none, some 0, none⟩ ["Abandoned"]).status =
      "Backlogged" :=
  ⟨by decide,
   (C7_status_mapping ⟨none, none, none, none, none, none, some 0, none⟩ ["Abandoned"]).1
     (by decide)⟩

/-- C8: `transformData` fails with `EmptyInputError` on a buffer blank after
trimming, fails with `InsufficientRowsError` when the (banner-stripped)
buffer holds fewer than two non-empty lines, and in particular the
header-only input `"Subscription ID\tRegion\n"` fails with
`InsufficientRowsError`. -/
theorem C8_early_validation :
    (∀ s : String, jsTrim s = "" → transformData s = .error .EmptyInputError) ∧
    (∀ s : String, jsTrim (cleanAzureDevOpsHeader s) ≠ "" → (linesOf s).length < 2 →
      transformData s = .error .InsufficientRowsError) ∧
    transformData headerOnlyInput = .error .InsufficientRowsError := by
  refine ⟨?_, ?_, rfl⟩
  · intro s h
    have hclean := clean_blank_of_blank h
    simp [transformData, hclean]
  · intro s h1 h2
    simp [transformData, beq_eq_false_iff_ne.mpr h1, h2]

/-- C8 witness: a whitespace-only buffer is blank after trimming and fails
with `EmptyInputError`. -/
theorem C8_early_validation_witness :
    jsTrim " \n " = "" ∧ transformData " \n " = .error .EmptyInputError :=
  ⟨by decide, C8_early_validation.1 " \n " (by decide)⟩

/-- C9 counterexample: `cleanVmType` removes a non-trailing `"(XIO)"` marker
(`"D(XIO)Sv3"` becomes `"DSv3"`), so its output is not always the input with
only a trailing marker removed and trimmed. -/
theorem C9_clean_vm_type_counterexample :
    cleanVmType "D(XIO)Sv3" = "DSv3" ∧
    specCleanVmType "D(XIO)Sv3" = "D(XIO)Sv3" ∧
    cleanVmType "D(XIO)Sv3" ≠ specCleanVmType "D(XIO)Sv3" := by
  refine ⟨by decide, by decide, by decide⟩

/-- C9 (amended): `cleanVmType` removes every case-insensitive occurrence of
`"(XIO)"` in one left-to-right pass and then trims: on marker-free inputs it
only trims, and on a marker-free prefix followed by one trailing marker it
agrees with the claim's trailing-removal description. -/
theorem C9_clean_vm_type (s : String) (a m : List Char) :
    (containsXio s.data = false → cleanVmType s = ⟨trimChars s.data⟩) ∧
    (containsXio a = false → m.map Char.toLower = xioChars →
      cleanVmType ⟨a ++ m⟩ = ⟨trimChars a⟩ ∧
      cleanVmType ⟨a ++ m⟩ = specCleanVmType ⟨a ++ m⟩) := by
  constructor
  · intro h
    by_cases hs : s = ""
    · subst hs; rfl
    · have hbeq : (s == "") = false := by
        rw [beq_eq_false_iff_ne]; exact hs
      rw [cleanVmType, hbeq]
      simp [removeXio_no_match s.data h]
  · intro hca hm
    have hlen : m.length = 5 := by
      have := congrArg List.length hm
      simpa [xioChars] using this
    match m, hm, hlen with
    | [m1, m2, m3, m4, m5], hm, _ =>
      have hbeq : ((⟨a ++ [m1, m2, m3, m4, m5]⟩ : String) == "") = false := by
        rw [beq_eq_false_iff_ne]
        intro hcontra
        have := congrArg String.data hcontra
        simp at this
      constructor
      · rw [cleanVmType, hbeq]
        simp only [Bool.false_eq_true, if_false]
        rw [removeXio_append_marker m1 m2 m3 m4 m5 hm a hca]
      · rw [cleanVmType, hbeq]
        simp only [Bool.false_eq_true, if_false]
        rw [specCleanVmType]
        rw [removeXio_append_marker m1 m2 m3 m4 m5 hm a hca,
            stripTrailingXio_append m1 m2 m3 m4 m5 hm a]

/-- C9 witness: `" DSv3 "` followed by the trailing marker `"(xIo)"` cleans
to `"DSv3"`, matching trailing-removal plus trim. -/
theorem C9_clean_vm_type_witness :
    containsXio (" DSv3 ".data) = false ∧
    ("(xIo)".data).map Char.toLower = xioChars ∧
    cleanVmType ⟨" DSv3 ".data ++ "(xIo)".data⟩ = ⟨trimChars " DSv3 ".data⟩ :=
  ⟨by decide, by decide,
   ((C9_clean_vm_type "" (" DSv3 ".data) ("(xIo)".data)).2 (by decide) (by decide)).1⟩

/-- C10: in canonical-input mode the produced record's Zone is `"N/A"`
whenever the resolved Zone cell is empty or missing, and its Status is
`"Pending"` whenever the mapped status value is empty. -/
theorem C10_canonical_defaults (headers : List String) (index : Nat) (values : List String) :
    (getCell values (findColIndex headers ["Zone"]) = "" →
      (canonicalRow headers index values).zone = "N/A") ∧
    (mapCanonicalStatus (getCell values (findColIndex headers ["Status"])) = "" →
      (canonicalRow headers index values).status = "Pending") := by
  constructor
  · intro h
    simp [canonicalRow, h]
  · intro h
    simp [canonicalRow, h]

/-- C10 witness: with no Zone column resolved, the record's Zone defaults to
`"N/A"`. -/
theorem C10_canonical_defaults_witness :
    getCell [] (findColIndex ["Subscription ID"] ["Zone"]) = "" ∧
    (canonicalRow ["Subscription ID"] 0 []).zone = "N/A" :=
  ⟨by decide, (C10_canonical_defaults ["Subscription ID"] 0 []).1 (by decide)⟩

end TableParser
